import Mathlib

/-!
Verification of the gravitation3 data-generation core: the trajectory
windowing, next-step labeling, simulators, samplers and diagnostics of the
Python data-collection scripts, shallowly embedded over the reals
(floating point idealised as `ℝ`, lists for the Python lists).
-/

namespace Gravitation3

open Classical

/-! ### Sequence windowing (`prepare_sequences` in the training scripts)

For one trajectory, already grouped by `trajectory_id` and ordered by
timestep, both sources iterate `for i in range(num_timesteps -
sequence_length - prediction_horizon)` and slice
`(features[i : i+sequence_length], features[i+sequence_length :
i+sequence_length+prediction_horizon])`; the Malkus trainer additionally
projects each output row to its first two columns (`y_seq[:, :2]`) before
emitting the pair, the double-pendulum trainer emits the slices as they
are. -/

/-- The double-pendulum trainer's windower: full feature vectors on both
sides of the pair. -/
def windowsOfTraj (L H : ℕ) (pts : List α) : List (List α × List α) :=
  (List.range (pts.length - L - H)).map
    (fun i => ((pts.drop i).take L, (pts.drop (i + L)).take H))

/-- The Malkus trainer's windower: each output row is truncated to its first
two components (`omega`, `theta`) by `y_seq[:, :2]`. -/
def windowsOfTrajMalkus (L H : ℕ) (rows : List (List α)) :
    List (List (List α) × List (List α)) :=
  (List.range (rows.length - L - H)).map
    (fun i => ((rows.drop i).take L,
      ((rows.drop (i + L)).take H).map (fun row => row.take 2)))

/-- `prepare_sequences` over the trajectory groups: concatenation of the
windows of every trajectory, in group order. -/
def prepare_sequences (L H : ℕ) (trajs : List (List α)) : List (List α × List α) :=
  trajs.flatMap (windowsOfTraj L H)

/-! ### Next-step labeling (`collect_data` in the collectors)

The Lorenz collector emits one sample per point with label taken from
`trajectory[min(timestep + 1, len(trajectory) - 1)]`; the Malkus collector
emits a sample only when `timestep < len(trajectory) - 1`, with label taken
from `trajectory[timestep + 1]`. A sample is modelled as
(timestep, current point, label point). -/

def nextStepSamplesLorenz [Inhabited α] (traj : List α) : List (ℕ × α × α) :=
  (List.range traj.length).map
    (fun i => (i, traj.getD i default, traj.getD (min (i + 1) (traj.length - 1)) default))

def nextStepSamplesMalkus [Inhabited α] (traj : List α) : List (ℕ × α × α) :=
  ((List.range traj.length).filter (fun i => decide (i < traj.length - 1))).map
    (fun i => (i, traj.getD i default, traj.getD (i + 1) default))

lemma filter_range_lt (n m : ℕ) :
    (List.range n).filter (fun i => decide (i < m)) = List.range (min n m) := by
  induction n with
  | zero => simp
  | succ k ih =>
      rw [List.range_succ, List.filter_append, ih]
      by_cases h : k < m
      · have hmin : min (k + 1) m = min k m + 1 := by omega
        have hkm : min k m = k := by omega
        simp [h, hmin, hkm, List.range_succ]
      · have hmin : min (k + 1) m = min k m := by omega
        simp [h, hmin]

lemma windowsOfTraj_getElem (L H : ℕ) (pts : List α) (i : ℕ)
    (hi : i < pts.length - L - H) :
    (windowsOfTraj L H pts)[i]? =
      some ((pts.drop i).take L, (pts.drop (i + L)).take H) := by
  rw [windowsOfTraj, List.getElem?_map, List.getElem?_range hi, Option.map_some']

lemma windowsOfTrajMalkus_getElem (L H : ℕ) (rows : List (List α)) (i : ℕ)
    (hi : i < rows.length - L - H) :
    (windowsOfTrajMalkus L H rows)[i]? =
      some ((rows.drop i).take L,
        ((rows.drop (i + L)).take H).map (fun row => row.take 2)) := by
  rw [windowsOfTrajMalkus, List.getElem?_map, List.getElem?_range hi, Option.map_some']

/-- C1 counterexample: the Malkus trainer, windowing a 4-point trajectory of
3-column feature rows with `L = 2`, `H = 1`, emits the output row `[6, 7]`,
the first two columns only — not the full feature vector `[6, 7, 8]` of point
`i + L` as the claim states. -/
theorem prepare_sequences_windowing_counterexample :
    windowsOfTrajMalkus 2 1
        ([[0, 1, 2], [3, 4, 5], [6, 7, 8], [9, 10, 11]] : List (List ℕ)) =
      [([[0, 1, 2], [3, 4, 5]], [[6, 7]])] ∧
    ([[6, 7]] : List (List ℕ)) ≠ [[6, 7, 8]] := by
  constructor
  · rfl
  · decide

/-- C1 amended: for a trajectory of `N` points, both `prepare_sequences`
variants emit exactly `max 0 (N - L - H)` windows from that trajectory (zero
windows when `N < L + H`), the window starting at `i` having input the full
feature vectors of points `i .. i+L-1`; in the double-pendulum trainer the
output is the full feature vectors of points `i+L .. i+L+H-1`, while in the
Malkus trainer the output is those feature vectors truncated to their first
two components. -/
theorem prepare_sequences_windowing (L H : ℕ) (pts : List α)
    (rows : List (List α)) :
    ((windowsOfTraj L H pts).length : ℤ) = max 0 ((pts.length : ℤ) - L - H) ∧
    ((windowsOfTrajMalkus L H rows).length : ℤ) =
      max 0 ((rows.length : ℤ) - L - H) ∧
    (∀ i j k : ℕ, i < pts.length - L - H → j < L → k < H →
      ((windowsOfTraj L H pts).getD i ([], [])).1.length = L ∧
      ((windowsOfTraj L H pts).getD i ([], [])).2.length = H ∧
      ((windowsOfTraj L H pts).getD i ([], [])).1[j]? = pts[i + j]? ∧
      ((windowsOfTraj L H pts).getD i ([], [])).2[k]? = pts[i + L + k]?) ∧
    (∀ i j k : ℕ, i < rows.length - L - H → j < L → k < H →
      ((windowsOfTrajMalkus L H rows).getD i ([], [])).1.length = L ∧
      ((windowsOfTrajMalkus L H rows).getD i ([], [])).2.length = H ∧
      ((windowsOfTrajMalkus L H rows).getD i ([], [])).1[j]? = rows[i + j]? ∧
      ((windowsOfTrajMalkus L H rows).getD i ([], [])).2[k]? =
        (rows[i + L + k]?).map (fun row => row.take 2)) := by
  refine ⟨?_, ?_, ?_, ?_⟩
  · have hlen : (windowsOfTraj L H pts).length = pts.length - L - H := by
      simp [windowsOfTraj]
    rw [hlen]
    omega
  · have hlen : (windowsOfTrajMalkus L H rows).length = rows.length - L - H := by
      simp [windowsOfTrajMalkus]
    rw [hlen]
    omega
  · intro i j k hi hj hk
    have hw : (windowsOfTraj L H pts).getD i ([], []) =
        ((pts.drop i).take L, (pts.drop (i + L)).take H) := by
      rw [List.getD_eq_getElem?_getD, windowsOfTraj_getElem L H pts i hi]
      rfl
    rw [hw]
    have hN : i + L + H ≤ pts.length := by omega
    refine ⟨?_, ?_, ?_, ?_⟩
    · rw [List.length_take, List.length_drop]
      omega
    · rw [List.length_take, List.length_drop]
      omega
    · rw [List.getElem?_take_of_lt hj, List.getElem?_drop]
    · rw [List.getElem?_take_of_lt hk, List.getElem?_drop]
  · intro i j k hi hj hk
    have hw : (windowsOfTrajMalkus L H rows).getD i ([], []) =
        ((rows.drop i).take L,
          ((rows.drop (i + L)).take H).map (fun row => row.take 2)) := by
      rw [List.getD_eq_getElem?_getD, windowsOfTrajMalkus_getElem L H rows i hi]
      rfl
    rw [hw]
    have hN : i + L + H ≤ rows.length := by omega
    refine ⟨?_, ?_, ?_, ?_⟩
    · rw [List.length_take, List.length_drop]
      omega
    · rw [List.length_map, List.length_take, List.length_drop]
      omega
    · rw [List.getElem?_take_of_lt hj, List.getElem?_drop]
    · rw [List.getElem?_map, List.getElem?_take_of_lt hk, List.getElem?_drop]

/-- C1 witness: the trajectory `[0,1,2,3]` for the double-pendulum windower
and a 4-point trajectory of 2-column rows for the Malkus windower, with
`L = 2`, `H = 1`. -/
theorem prepare_sequences_windowing_witness :
    ((windowsOfTraj 2 1 ([0, 1, 2, 3] : List ℕ)).length : ℤ) =
        max 0 ((([0, 1, 2, 3] : List ℕ).length : ℤ) - 2 - 1) ∧
    ((windowsOfTraj 2 1 ([0, 1, 2, 3] : List ℕ)).getD 0 ([], [])).1[0]? =
        ([0, 1, 2, 3] : List ℕ)[0 + 0]? ∧
    ((windowsOfTraj 2 1 ([0, 1, 2, 3] : List ℕ)).getD 0 ([], [])).2[0]? =
        ([0, 1, 2, 3] : List ℕ)[0 + 2 + 0]? ∧
    ((windowsOfTrajMalkus 2 1
        ([[0, 10], [1, 11], [2, 12], [3, 13]] : List (List ℕ))).getD 0
        ([], [])).2[0]? =
      (([[0, 10], [1, 11], [2, 12], [3, 13]] : List (List ℕ))[0 + 2 + 0]?).map
        (fun row => row.take 2) := by
  have h := prepare_sequences_windowing 2 1 ([0, 1, 2, 3] : List ℕ)
    ([[0, 10], [1, 11], [2, 12], [3, 13]] : List (List ℕ))
  have h2 := h.2.2.1 0 0 0 (by decide) (by decide) (by decide)
  have h3 := h.2.2.2 0 0 0 (by decide) (by decide) (by decide)
  exact ⟨h.1, h2.2.2.1, h2.2.2.2, h3.2.2.2⟩

/-- C3 counterexample: the Malkus collector, on a 2-point trajectory, emits a
single sample (for index 0 only); the final point yields no sample, so the
claimed per-index sample with self-label does not exist for the last index. -/
theorem next_step_labeling_counterexample :
    nextStepSamplesMalkus ([10, 20] : List ℕ) = [(0, 10, 20)] ∧
    ([10, 20] : List ℕ).length = 2 := by
  constructor
  · rfl
  · rfl

/-- C3 amended: the Lorenz collector emits one sample per index `i < N`, with
label the state of point `i+1` when `i+1 < N` and the point's own state when
`i` is last; the Malkus collector emits exactly `N - 1` samples, one per
`i` with `i+1 < N`, labelled by point `i+1`, and the final point of each
trajectory yields no sample. -/
theorem next_step_labeling (α : Type) [Inhabited α] (traj : List α) :
    (nextStepSamplesLorenz traj).length = traj.length ∧
    (nextStepSamplesMalkus traj).length = traj.length - 1 ∧
    (∀ i : ℕ, i < traj.length →
      (nextStepSamplesLorenz traj)[i]? =
        some (i, traj.getD i default,
          if i + 1 < traj.length then traj.getD (i + 1) default
          else traj.getD i default)) ∧
    (∀ i : ℕ, i + 1 < traj.length →
      (nextStepSamplesMalkus traj)[i]? =
        some (i, traj.getD i default, traj.getD (i + 1) default)) := by
  refine ⟨?_, ?_, ?_, ?_⟩
  · simp [nextStepSamplesLorenz]
  · rw [nextStepSamplesMalkus, List.length_map, filter_range_lt, List.length_range]
    omega
  · intro i hi
    rw [nextStepSamplesLorenz, List.getElem?_map, List.getElem?_range hi, Option.map_some']
    by_cases h : i + 1 < traj.length
    · have hmin : min (i + 1) (traj.length - 1) = i + 1 := by omega
      rw [hmin, if_pos h]
    · have hmin : min (i + 1) (traj.length - 1) = i := by omega
      rw [hmin, if_neg h]
  · intro i hi
    rw [nextStepSamplesMalkus, filter_range_lt, List.getElem?_map]
    have hi2 : i < min traj.length (traj.length - 1) := by omega
    rw [List.getElem?_range hi2, Option.map_some']

/-- C3 witness: on the 3-point trajectory `[10,20,30]`, the Lorenz collector
labels the last point with its own state, and the Malkus collector emits its
sample for index 1 labelled by point 2. -/
theorem next_step_labeling_witness :
    (nextStepSamplesLorenz ([10, 20, 30] : List ℕ))[2]? =
      some (2, ([10, 20, 30] : List ℕ).getD 2 default,
        if 2 + 1 < ([10, 20, 30] : List ℕ).length
        then ([10, 20, 30] : List ℕ).getD (2 + 1) default
        else ([10, 20, 30] : List ℕ).getD 2 default) ∧
    (nextStepSamplesMalkus ([10, 20, 30] : List ℕ))[1]? =
      some (1, ([10, 20, 30] : List ℕ).getD 1 default,
        ([10, 20, 30] : List ℕ).getD (1 + 1) default) := by
  have h := next_step_labeling ℕ ([10, 20, 30] : List ℕ)
  exact ⟨h.2.2.1 2 (by decide), h.2.2.2 1 (by decide)⟩

/-! ### Double pendulum (`collect_double_pendulum_data.py`)

State `[theta1, omega1, theta2, omega2]`, parameters `l1 l2 m1 m2 g dt`
(constructor defaults `g = 9.81`, `dt = 0.01`). -/

structure DPParams where
  l1 : ℝ
  l2 : ℝ
  m1 : ℝ
  m2 : ℝ
  g : ℝ
  dt : ℝ

structure DPState where
  theta1 : ℝ
  omega1 : ℝ
  theta2 : ℝ
  omega2 : ℝ

instance : Add DPState :=
  ⟨fun a b => ⟨a.theta1 + b.theta1, a.omega1 + b.omega1,
    a.theta2 + b.theta2, a.omega2 + b.omega2⟩⟩

instance : SMul ℝ DPState :=
  ⟨fun c a => ⟨c * a.theta1, c * a.omega1, c * a.theta2, c * a.omega2⟩⟩

/-- `den1 = (m1+m2)*l1 - m2*l1*cos(delta)*cos(delta)` with `delta = theta2 - theta1`. -/
noncomputable def dp_den1 (p : DPParams) (s : DPState) : ℝ :=
  (p.m1 + p.m2) * p.l1 -
    p.m2 * p.l1 * Real.cos (s.theta2 - s.theta1) * Real.cos (s.theta2 - s.theta1)

/-- `DoublePendulumSimulator.derivatives`: no finiteness or small-denominator
check is present in the source; the quotients are formed unconditionally. -/
noncomputable def dp_derivatives (p : DPParams) (s : DPState) : DPState :=
  let delta := s.theta2 - s.theta1
  let den1 := dp_den1 p s
  let den2 := (p.l2 / p.l1) * den1
  { theta1 := s.omega1
    omega1 :=
      (p.m2 * p.l1 * s.omega1 * s.omega1 * Real.sin delta * Real.cos delta +
        p.m2 * p.g * Real.sin s.theta2 * Real.cos delta +
        p.m2 * p.l2 * s.omega2 * s.omega2 * Real.sin delta -
        (p.m1 + p.m2) * p.g * Real.sin s.theta1) / den1
    theta2 := s.omega2
    omega2 :=
      (-(p.m2 * p.l2 * s.omega2 * s.omega2 * Real.sin delta * Real.cos delta) +
        (p.m1 + p.m2) * p.g * Real.sin s.theta1 * Real.cos delta -
        (p.m1 + p.m2) * p.l1 * s.omega1 * s.omega1 * Real.sin delta -
        (p.m1 + p.m2) * p.g * Real.sin s.theta2) / den2 }

noncomputable def dp_step_rk4 (p : DPParams) (s : DPState) : DPState :=
  let k1 := dp_derivatives p s
  let k2 := dp_derivatives p (s + (p.dt / 2) • k1)
  let k3 := dp_derivatives p (s + (p.dt / 2) • k2)
  let k4 := dp_derivatives p (s + p.dt • k3)
  s + (p.dt / 6) • (k1 + (2 : ℝ) • k2 + (2 : ℝ) • k3 + k4)

/-- One recorded trajectory point of the double-pendulum collector. -/
structure DPPoint where
  time : ℝ
  theta1 : ℝ
  omega1 : ℝ
  theta2 : ℝ
  omega2 : ℝ
  x1 : ℝ
  y1 : ℝ
  x2 : ℝ
  y2 : ℝ
  energy : ℝ

def zeroPt : DPPoint := ⟨0, 0, 0, 0, 0, 0, 0, 0, 0, 0⟩

instance : Inhabited DPPoint := ⟨zeroPt⟩

noncomputable def dp_positions (p : DPParams) (s : DPState) : ℝ × ℝ × ℝ × ℝ :=
  let x1 := p.l1 * Real.sin s.theta1
  let y1 := -(p.l1 * Real.cos s.theta1)
  (x1, y1, x1 + p.l2 * Real.sin s.theta2, y1 - p.l2 * Real.cos s.theta2)

noncomputable def dp_energy (p : DPParams) (s : DPState) : ℝ :=
  let v1x := p.l1 * s.omega1 * Real.cos s.theta1
  let v1y := p.l1 * s.omega1 * Real.sin s.theta1
  let v2x := v1x + p.l2 * s.omega2 * Real.cos s.theta2
  let v2y := v1y + p.l2 * s.omega2 * Real.sin s.theta2
  let ke := 1 / 2 * p.m1 * (v1x ^ 2 + v1y ^ 2) + 1 / 2 * p.m2 * (v2x ^ 2 + v2y ^ 2)
  let pe := p.m1 * p.g * (dp_positions p s).2.1 + p.m2 * p.g * (dp_positions p s).2.2.2
  ke + pe

noncomputable def dp_point (p : DPParams) (t : ℝ) (s : DPState) : DPPoint :=
  { time := t
    theta1 := s.theta1
    omega1 := s.omega1
    theta2 := s.theta2
    omega2 := s.omega2
    x1 := (dp_positions p s).1
    y1 := (dp_positions p s).2.1
    x2 := (dp_positions p s).2.2.1
    y2 := (dp_positions p s).2.2.2
    energy := dp_energy p s }

/-- The loop body of `simulate_trajectory`: step first, then append the
post-step point; no check of any kind guards the append. -/
noncomputable def dp_simulate_aux (p : DPParams) : ℕ → DPState → ℝ → List DPPoint
  | 0, _, _ => []
  | n + 1, s, t =>
      dp_point p (t + p.dt) (dp_step_rk4 p s) ::
        dp_simulate_aux p n (dp_step_rk4 p s) (t + p.dt)

noncomputable def dp_simulate_trajectory (p : DPParams) (s0 : DPState) (numSteps : ℕ) :
    List DPPoint :=
  dp_simulate_aux p numSteps s0 0

lemma dp_simulate_aux_length (p : DPParams) (n : ℕ) (s : DPState) (t : ℝ) :
    (dp_simulate_aux p n s t).length = n := by
  induction n generalizing s t with
  | zero => rfl
  | succ k ih => simp [dp_simulate_aux, ih]

/-- Parameters whose `den1` at the rest state is `10⁻¹²`, far below any
reasonable epsilon: `l1 = l2 = 1`, `m1 = 10⁻¹²`, `m2 = 1`, `g = 9.81`,
`dt = 0.01`. -/
noncomputable def dpTinyMassParams : DPParams :=
  ⟨1, 1, 1 / 1000000000000, 1, 981 / 100, 1 / 100⟩

noncomputable def dpRestState : DPState := ⟨0, 0, 0, 0⟩

/-- C2: the double-pendulum generator has no abort path at all: for every
parameter set and initial state the trajectory contains exactly `numSteps`
appended points, and in particular for a configuration whose denominator
`den1` is `10⁻¹² < 10⁻⁶` the generation still appends every point instead of
aborting. -/
theorem dp_no_singularity_abort (p : DPParams) (s : DPState) (n : ℕ) :
    (dp_simulate_trajectory p s n).length = n ∧
    dp_den1 dpTinyMassParams dpRestState < 1 / 1000000 ∧
    (dp_simulate_trajectory dpTinyMassParams dpRestState 5).length = 5 := by
  refine ⟨dp_simulate_aux_length p n s 0, ?_, dp_simulate_aux_length _ 5 _ 0⟩
  rw [dp_den1]
  norm_num [dpTinyMassParams, dpRestState, Real.cos_zero]

/-! ### Chaos diagnostics of the double-pendulum collector -/

/-- The lag-10 phase-angle distance used by
`calculate_lyapunov_approximation`. -/
noncomputable def lyapDistance (tr : List DPPoint) (i : ℕ) : ℝ :=
  let d1 := |(tr.getD i default).theta1 - (tr.getD (i - 10) default).theta1|
  let d2 := |(tr.getD i default).theta2 - (tr.getD (i - 10) default).theta2|
  Real.sqrt (d1 ^ 2 + d2 ^ 2)

/-- The accumulation loop `for i in range(10, len(trajectory))` building
`(sum_log, count)` over distances above `1e-10`. -/
noncomputable def lyapFold (tr : List DPPoint) : ℝ × ℕ :=
  (List.range' 10 (tr.length - 10)).foldl
    (fun acc i =>
      if lyapDistance tr i > 1 / 10000000000
      then (acc.1 + Real.log (lyapDistance tr i), acc.2 + 1)
      else acc)
    (0, 0)

/-- `calculate_lyapunov_approximation`: returns `0.0` outright for
trajectories of fewer than 20 points, otherwise the accumulated mean. -/
noncomputable def calculate_lyapunov_approximation (tr : List DPPoint) : ℝ :=
  if tr.length < 20 then 0
  else if 0 < (lyapFold tr).2 then (lyapFold tr).1 / ((lyapFold tr).2 : ℝ) else 0

/-- The formula of the spec sentence: the mean of `log` of the lag-10
distances over all indices `i ≥ 10` whose distance exceeds `1e-10`, and `0.0`
when no such index exists — with no length guard. -/
noncomputable def lyapunovSpecFormula (tr : List DPPoint) : ℝ :=
  let valid := (List.range' 10 (tr.length - 10)).filter
    (fun i => decide (lyapDistance tr i > 1 / 10000000000))
  if valid.length = 0 then 0
  else (valid.map (fun i => Real.log (lyapDistance tr i))).sum / (valid.length : ℝ)

lemma lyapFold_eq_filter (tr : List DPPoint) (idxs : List ℕ) (a : ℝ) (c : ℕ) :
    idxs.foldl
      (fun acc i =>
        if lyapDistance tr i > 1 / 10000000000
        then (acc.1 + Real.log (lyapDistance tr i), acc.2 + 1)
        else acc)
      (a, c) =
    (a + ((idxs.filter (fun i => decide (lyapDistance tr i > 1 / 10000000000))).map
        (fun i => Real.log (lyapDistance tr i))).sum,
      c + (idxs.filter (fun i => decide (lyapDistance tr i > 1 / 10000000000))).length) := by
  induction idxs generalizing a c with
  | nil => simp
  | cons x xs ih =>
      by_cases h : lyapDistance tr x > 1 / 10000000000
      · rw [List.foldl_cons, if_pos h, ih,
          List.filter_cons_of_pos (by simpa using h), List.map_cons, List.sum_cons,
          List.length_cons]
        simp only [Prod.mk.injEq]
        exact ⟨by ring, by omega⟩
      · rw [List.foldl_cons, if_neg h, ih,
          List.filter_cons_of_neg (by simpa using h)]

/-- C5 amended: for trajectories of at least 20 points,
`calculate_lyapunov_approximation` equals the spec formula — the mean of
`log` of the lag-10 distances over the indices whose distance exceeds
`1e-10`, `0.0` when no valid pair exists; trajectories of fewer than 20
points return `0.0` unconditionally. -/
theorem calculate_lyapunov_spec (tr : List DPPoint) :
    (20 ≤ tr.length →
      calculate_lyapunov_approximation tr = lyapunovSpecFormula tr) ∧
    (tr.length < 20 → calculate_lyapunov_approximation tr = 0) := by
  constructor
  · intro h20
    rw [calculate_lyapunov_approximation, if_neg (by omega), lyapunovSpecFormula]
    rw [lyapFold, lyapFold_eq_filter tr (List.range' 10 (tr.length - 10)) 0 0]
    simp only [zero_add]
    by_cases hlen :
        ((List.range' 10 (tr.length - 10)).filter
          (fun i => decide (lyapDistance tr i > 1 / 10000000000))).length = 0
    · rw [if_pos hlen, hlen, if_neg (lt_irrefl 0)]
    · rw [if_neg hlen, if_pos (Nat.pos_of_ne_zero hlen)]
  · intro h20
    rw [calculate_lyapunov_approximation, if_pos h20]

/-- C5 witness: a 20-point and a 19-point trajectory of rest points. -/
theorem calculate_lyapunov_spec_witness :
    calculate_lyapunov_approximation (List.replicate 20 default) =
      lyapunovSpecFormula (List.replicate 20 default) ∧
    calculate_lyapunov_approximation (List.replicate 19 default) = 0 := by
  constructor
  · exact (calculate_lyapunov_spec (List.replicate 20 default)).1 (by simp)
  · exact (calculate_lyapunov_spec (List.replicate 19 default)).2 (by simp)

/-- A 15-point trajectory whose lag-10 phase-angle distances are all `10`. -/
noncomputable def lyapPt (a : ℝ) : DPPoint := ⟨0, a, 0, 0, 0, 0, 0, 0, 0, 0⟩

noncomputable def lyapTraj15 : List DPPoint :=
  [lyapPt 0, lyapPt 1, lyapPt 2, lyapPt 3, lyapPt 4, lyapPt 5, lyapPt 6, lyapPt 7,
    lyapPt 8, lyapPt 9, lyapPt 10, lyapPt 11, lyapPt 12, lyapPt 13, lyapPt 14]

lemma lyapTraj15_distance (i : ℕ) (h1 : 10 ≤ i) (h2 : i < 15) :
    lyapDistance lyapTraj15 i = 10 := by
  interval_cases i <;>
    · rw [lyapDistance]
      norm_num [lyapTraj15, lyapPt]
      rw [show (100 : ℝ) = 10 ^ 2 by norm_num, Real.sqrt_sq (by norm_num : (0:ℝ) ≤ 10)]

/-- C5 counterexample: on a 15-point trajectory whose lag-10 distances are
all `10`, the code returns `0.0` because of its hard `len < 20` guard, while
the claimed mean over the valid pairs is `log 10 ≠ 0`. -/
theorem calculate_lyapunov_counterexample :
    calculate_lyapunov_approximation lyapTraj15 = 0 ∧
    lyapunovSpecFormula lyapTraj15 = Real.log 10 ∧
    Real.log 10 ≠ 0 := by
  have hlen : lyapTraj15.length = 15 := by rw [lyapTraj15]; rfl
  refine ⟨?_, ?_, ne_of_gt (Real.log_pos (by norm_num))⟩
  · rw [calculate_lyapunov_approximation, if_pos (by omega)]
  · have hrange : List.range' 10 (lyapTraj15.length - 10) = [10, 11, 12, 13, 14] := by
      rw [hlen]
      decide
    have h10 := lyapTraj15_distance 10 (by omega) (by omega)
    have h11 := lyapTraj15_distance 11 (by omega) (by omega)
    have h12 := lyapTraj15_distance 12 (by omega) (by omega)
    have h13 := lyapTraj15_distance 13 (by omega) (by omega)
    have h14 := lyapTraj15_distance 14 (by omega) (by omega)
    rw [lyapunovSpecFormula]
    rw [hrange]
    have hfilter :
        ([10, 11, 12, 13, 14] : List ℕ).filter
          (fun i => decide (lyapDistance lyapTraj15 i > 1 / 10000000000)) =
        [10, 11, 12, 13, 14] := by
      simp only [List.filter_cons, List.filter_nil, h10, h11, h12, h13, h14,
        decide_eq_true_eq]
      norm_num
    rw [hfilter]
    rw [if_neg (by norm_num)]
    rw [List.map_cons, List.map_cons, List.map_cons, List.map_cons, List.map_cons,
      List.map_nil, h10, h11, h12, h13, h14]
    simp only [List.sum_cons, List.sum_nil, List.length_cons, List.length_nil]
    norm_num
    ring

/-! ### Behavior classification (`classify_behavior`) -/

noncomputable def listMean (l : List ℝ) : ℝ := l.sum / l.length

/-- Population standard deviation as used by `np.std`. -/
noncomputable def listStd (l : List ℝ) : ℝ :=
  Real.sqrt ((l.map (fun x => (x - listMean l) ^ 2)).sum / l.length)

/-- `theta1_changes`: absolute consecutive differences of `theta1`. -/
noncomputable def theta1Changes (tr : List DPPoint) : List ℝ :=
  (List.range' 1 (tr.length - 1)).map
    (fun i => |(tr.getD i default).theta1 - (tr.getD (i - 1) default).theta1|)

noncomputable def theta2Changes (tr : List DPPoint) : List ℝ :=
  (List.range' 1 (tr.length - 1)).map
    (fun i => |(tr.getD i default).theta2 - (tr.getD (i - 1) default).theta2|)

/-- The windowed autocorrelation-like measure: average over `i < len/2` of
`|omega1[i] - omega1[i+mid]| + |omega2[i] - omega2[i+mid]|`. -/
noncomputable def omegaCorrelation (tr : List DPPoint) : ℝ :=
  let mid := tr.length / 2
  ((List.range mid).map
    (fun i =>
      |(tr.getD i default).omega1 - (tr.getD (i + mid) default).omega1| +
      |(tr.getD i default).omega2 - (tr.getD (i + mid) default).omega2|)).sum / (mid : ℝ)

/-- `classify_behavior`, thresholds `3.0`, `0.3`, `5.0`, `0.5` from source. -/
noncomputable def classify_behavior (tr : List DPPoint) : String :=
  if tr.length < 10 then "chaotic"
  else if omegaCorrelation tr < 3 ∧
      listStd (theta1Changes tr) < 3 / 10 ∧ listStd (theta2Changes tr) < 3 / 10 then
    "periodic"
  else if omegaCorrelation tr < 5 ∧
      (listStd (theta1Changes tr) < 1 / 2 ∨ listStd (theta2Changes tr) < 1 / 2) then
    "resonant"
  else "chaotic"

/-- C10: any trajectory of fewer than 10 points is classified chaotic,
whatever its statistics. -/
theorem classify_behavior_short_trajectory (tr : List DPPoint) (h : tr.length < 10) :
    classify_behavior tr = "chaotic" := by
  rw [classify_behavior, if_pos h]

/-- C10 witness: the empty trajectory. -/
theorem classify_behavior_short_trajectory_witness :
    ([] : List DPPoint).length < 10 ∧ classify_behavior [] = "chaotic" :=
  ⟨by simp, classify_behavior_short_trajectory [] (by simp)⟩

/-- C6 amended: for trajectories of at least 10 points the three-way decision
rule is exactly as claimed; shorter trajectories are classified chaotic
unconditionally (see the counterexample). -/
theorem classify_behavior_decision_rule (tr : List DPPoint) (h : 10 ≤ tr.length) :
    (classify_behavior tr = "periodic" ↔
      omegaCorrelation tr < 3 ∧
        listStd (theta1Changes tr) < 3 / 10 ∧ listStd (theta2Changes tr) < 3 / 10) ∧
    (classify_behavior tr = "resonant" ↔
      ¬(omegaCorrelation tr < 3 ∧
          listStd (theta1Changes tr) < 3 / 10 ∧ listStd (theta2Changes tr) < 3 / 10) ∧
        omegaCorrelation tr < 5 ∧
        (listStd (theta1Changes tr) < 1 / 2 ∨ listStd (theta2Changes tr) < 1 / 2)) ∧
    (classify_behavior tr = "chaotic" ↔
      ¬(omegaCorrelation tr < 3 ∧
          listStd (theta1Changes tr) < 3 / 10 ∧ listStd (theta2Changes tr) < 3 / 10) ∧
        ¬(omegaCorrelation tr < 5 ∧
          (listStd (theta1Changes tr) < 1 / 2 ∨ listStd (theta2Changes tr) < 1 / 2))) := by
  rw [classify_behavior, if_neg (by omega)]
  by_cases hP : omegaCorrelation tr < 3 ∧
      listStd (theta1Changes tr) < 3 / 10 ∧ listStd (theta2Changes tr) < 3 / 10
  · rw [if_pos hP]
    exact ⟨⟨fun _ => hP, fun _ => rfl⟩,
      ⟨fun he => absurd he (by decide), fun hc => absurd hP hc.1⟩,
      ⟨fun he => absurd he (by decide), fun hc => absurd hP hc.1⟩⟩
  · rw [if_neg hP]
    by_cases hR : omegaCorrelation tr < 5 ∧
        (listStd (theta1Changes tr) < 1 / 2 ∨ listStd (theta2Changes tr) < 1 / 2)
    · rw [if_pos hR]
      exact ⟨⟨fun he => absurd he (by decide), fun hp => absurd hp hP⟩,
        ⟨fun _ => ⟨hP, hR⟩, fun _ => rfl⟩,
        ⟨fun he => absurd he (by decide), fun hc => absurd hR hc.2⟩⟩
    · rw [if_neg hR]
      exact ⟨⟨fun he => absurd he (by decide), fun hp => absurd hp hP⟩,
        ⟨fun he => absurd he (by decide), fun hc => absurd hc.2 hR⟩,
        ⟨fun _ => ⟨hP, hR⟩, fun _ => rfl⟩⟩

/-- C6 witness: the all-rest 10-point trajectory satisfies the hypothesis. -/
theorem classify_behavior_decision_rule_witness :
    classify_behavior (List.replicate 10 zeroPt) = "periodic" ↔
      omegaCorrelation (List.replicate 10 zeroPt) < 3 ∧
        listStd (theta1Changes (List.replicate 10 zeroPt)) < 3 / 10 ∧
        listStd (theta2Changes (List.replicate 10 zeroPt)) < 3 / 10 :=
  (classify_behavior_decision_rule (List.replicate 10 zeroPt) (by simp)).1

noncomputable def zeroTraj4 : List DPPoint := [zeroPt, zeroPt, zeroPt, zeroPt]

/-- C6 counterexample: a 4-point rest trajectory meets every periodic
condition of the claimed rule (autocorrelation `0 < 3`, both std-devs
`0 < 0.3`) yet is classified chaotic by the length guard. -/
theorem classify_behavior_counterexample :
    classify_behavior zeroTraj4 = "chaotic" ∧
    omegaCorrelation zeroTraj4 < 3 ∧
    listStd (theta1Changes zeroTraj4) < 3 / 10 ∧
    listStd (theta2Changes zeroTraj4) < 3 / 10 ∧
    ("chaotic" : String) ≠ "periodic" := by
  have hlen : zeroTraj4.length = 4 := by rw [zeroTraj4]; rfl
  have hrange : List.range' 1 (zeroTraj4.length - 1) = [1, 2, 3] := by
    rw [hlen]
    decide
  have h1 : theta1Changes zeroTraj4 = [0, 0, 0] := by
    rw [theta1Changes, hrange]
    norm_num [zeroTraj4, zeroPt]
  have h2 : theta2Changes zeroTraj4 = [0, 0, 0] := by
    rw [theta2Changes, hrange]
    norm_num [zeroTraj4, zeroPt]
  have hstd : listStd [0, 0, 0] = 0 := by
    rw [listStd, listMean]
    norm_num [Real.sqrt_zero]
  refine ⟨?_, ?_, ?_, ?_, by decide⟩
  · rw [classify_behavior, if_pos (by omega)]
  · rw [omegaCorrelation]
    have hmid : zeroTraj4.length / 2 = 2 := by omega
    rw [hmid, show List.range 2 = [0, 1] from rfl]
    norm_num [zeroTraj4, zeroPt]
  · rw [h1, hstd]
    norm_num
  · rw [h2, hstd]
    norm_num

/-! ### Lorenz simulator (`collect_lorenz_data.py`) -/

structure LorenzParams where
  sigma : ℝ
  rho : ℝ
  beta : ℝ
  dt : ℝ

structure LorenzState where
  x : ℝ
  y : ℝ
  z : ℝ

instance : Add LorenzState :=
  ⟨fun a b => ⟨a.x + b.x, a.y + b.y, a.z + b.z⟩⟩

instance : SMul ℝ LorenzState :=
  ⟨fun c a => ⟨c * a.x, c * a.y, c * a.z⟩⟩

def lorenz_derivatives (p : LorenzParams) (s : LorenzState) : LorenzState :=
  ⟨p.sigma * (s.y - s.x), s.x * (p.rho - s.z) - s.y, s.x * s.y - p.beta * s.z⟩

noncomputable def lorenz_step_rk4 (p : LorenzParams) (s : LorenzState) : LorenzState :=
  let k1 := lorenz_derivatives p s
  let k2 := lorenz_derivatives p (s + (p.dt / 2) • k1)
  let k3 := lorenz_derivatives p (s + (p.dt / 2) • k2)
  let k4 := lorenz_derivatives p (s + p.dt • k3)
  s + (p.dt / 6) • (k1 + (2 : ℝ) • k2 + (2 : ℝ) • k3 + k4)

structure LorenzPoint where
  time : ℝ
  x : ℝ
  y : ℝ
  z : ℝ
  sigma : ℝ
  rho : ℝ
  beta : ℝ

instance : Inhabited LorenzPoint := ⟨⟨0, 0, 0, 0, 0, 0, 0⟩⟩

def lorenz_point (p : LorenzParams) (t : ℝ) (s : LorenzState) : LorenzPoint :=
  ⟨t, s.x, s.y, s.z, p.sigma, p.rho, p.beta⟩

/-- The Lorenz collector steps first, then appends the post-step point. -/
noncomputable def lorenz_simulate_aux (p : LorenzParams) :
    ℕ → LorenzState → ℝ → List LorenzPoint
  | 0, _, _ => []
  | n + 1, s, t =>
      lorenz_point p (t + p.dt) (lorenz_step_rk4 p s) ::
        lorenz_simulate_aux p n (lorenz_step_rk4 p s) (t + p.dt)

noncomputable def lorenz_simulate_trajectory (p : LorenzParams) (s0 : LorenzState)
    (numSteps : ℕ) : List LorenzPoint :=
  lorenz_simulate_aux p numSteps s0 0

/-- `k` applications of the RK4 step. -/
noncomputable def lorenz_iter (p : LorenzParams) : ℕ → LorenzState → LorenzState
  | 0, s => s
  | n + 1, s => lorenz_iter p n (lorenz_step_rk4 p s)

/-! ### Double-gyre simulator (`collect_double_gyre_data.py`) -/

structure GyreParams where
  A : ℝ
  epsilon : ℝ
  omega : ℝ
  dt : ℝ

def gyreDomainWidth : ℝ := 2

def gyreDomainHeight : ℝ := 1

noncomputable def gyre_time_functions (p : GyreParams) (t : ℝ) : ℝ × ℝ :=
  (p.epsilon * Real.sin (p.omega * t), 1 - 2 * p.epsilon * Real.sin (p.omega * t))

/-- `calculate_f`: the pair `(f(x,t), df/dx)`. -/
noncomputable def gyre_calculate_f (p : GyreParams) (x t : ℝ) : ℝ × ℝ :=
  let ab := gyre_time_functions p t
  (ab.1 * x * x + ab.2 * x, 2 * ab.1 * x + ab.2)

noncomputable def gyre_velocity (p : GyreParams) (x y t : ℝ) : ℝ × ℝ :=
  let fd := gyre_calculate_f p x t
  (-(Real.pi * p.A * Real.sin (Real.pi * fd.1) * Real.cos (Real.pi * y)),
    Real.pi * p.A * Real.cos (Real.pi * fd.1) * Real.sin (Real.pi * y) * fd.2)

/-- Post-step x handling: one conditional wrap over the domain width. -/
noncomputable def wrapX (w : ℝ) : ℝ :=
  if w < 0 then w + gyreDomainWidth
  else if w > gyreDomainWidth then w - gyreDomainWidth
  else w

/-- Post-step y handling: reflection at the domain edges. -/
noncomputable def reflectY (w : ℝ) : ℝ :=
  if w < 0 then -w
  else if w > gyreDomainHeight then 2 * gyreDomainHeight - w
  else w

noncomputable def gyre_step_euler (p : GyreParams) (x y t : ℝ) : ℝ × ℝ :=
  (wrapX (x + p.dt * (gyre_velocity p x y t).1),
    reflectY (y + p.dt * (gyre_velocity p x y t).2))

structure GyrePoint where
  time : ℝ
  x : ℝ
  y : ℝ
  A : ℝ
  epsilon : ℝ
  omega : ℝ

instance : Inhabited GyrePoint := ⟨⟨0, 0, 0, 0, 0, 0⟩⟩

def gyre_point (p : GyreParams) (t : ℝ) (s : ℝ × ℝ) : GyrePoint :=
  ⟨t, s.1, s.2, p.A, p.epsilon, p.omega⟩

/-- The double-gyre collector appends the pre-step point, then steps. -/
noncomputable def gyre_simulate_aux (p : GyreParams) : ℕ → ℝ × ℝ → ℝ → List GyrePoint
  | 0, _, _ => []
  | n + 1, s, t =>
      gyre_point p t s :: gyre_simulate_aux p n (gyre_step_euler p s.1 s.2 t) (t + p.dt)

noncomputable def gyre_simulate_trajectory (p : GyreParams) (x0 y0 : ℝ)
    (numSteps : ℕ) : List GyrePoint :=
  gyre_simulate_aux p numSteps (x0, y0) 0

/-- `k` applications of the Euler step starting at time `t`. -/
noncomputable def gyre_iter (p : GyreParams) : ℕ → ℝ × ℝ → ℝ → ℝ × ℝ
  | 0, s, _ => s
  | n + 1, s, t => gyre_iter p n (gyre_step_euler p s.1 s.2 t) (t + p.dt)

lemma lorenz_simulate_aux_getElem (p : LorenzParams) (n : ℕ) (s : LorenzState)
    (t : ℝ) (k : ℕ) (hk : k < n) :
    (lorenz_simulate_aux p n s t)[k]? =
      some (lorenz_point p (t + ((k : ℝ) + 1) * p.dt) (lorenz_iter p (k + 1) s)) := by
  induction n generalizing s t k with
  | zero => omega
  | succ m ih =>
      cases k with
      | zero =>
          rw [lorenz_simulate_aux, List.getElem?_cons_zero,
            show lorenz_iter p (0 + 1) s = lorenz_step_rk4 p s from rfl]
          norm_num
      | succ j =>
          rw [lorenz_simulate_aux]
          have hj : j < m := by omega
          rw [List.getElem?_cons_succ, ih (lorenz_step_rk4 p s) (t + p.dt) j hj]
          have hiter : lorenz_iter p (j + 1) (lorenz_step_rk4 p s) =
              lorenz_iter p (j + 1 + 1) s := rfl
          rw [hiter]
          have htime : t + p.dt + ((j : ℝ) + 1) * p.dt = t + ((j : ℝ) + 1 + 1) * p.dt := by
            ring
          rw [htime]
          push_cast
          ring_nf

lemma lorenz_simulate_aux_length (p : LorenzParams) (n : ℕ) (s : LorenzState) (t : ℝ) :
    (lorenz_simulate_aux p n s t).length = n := by
  induction n generalizing s t with
  | zero => rfl
  | succ m ih => simp [lorenz_simulate_aux, ih]

lemma gyre_simulate_aux_getElem (p : GyreParams) (n : ℕ) (s : ℝ × ℝ)
    (t : ℝ) (k : ℕ) (hk : k < n) :
    (gyre_simulate_aux p n s t)[k]? =
      some (gyre_point p (t + (k : ℝ) * p.dt) (gyre_iter p k s t)) := by
  induction n generalizing s t k with
  | zero => omega
  | succ m ih =>
      cases k with
      | zero =>
          rw [gyre_simulate_aux, List.getElem?_cons_zero,
            show gyre_iter p 0 s t = s from rfl]
          norm_num
      | succ j =>
          rw [gyre_simulate_aux]
          have hj : j < m := by omega
          rw [List.getElem?_cons_succ,
            ih (gyre_step_euler p s.1 s.2 t) (t + p.dt) j hj]
          have hiter : gyre_iter p j (gyre_step_euler p s.1 s.2 t) (t + p.dt) =
              gyre_iter p (j + 1) s t := rfl
          rw [hiter]
          have htime : t + p.dt + (j : ℝ) * p.dt = t + ((j : ℝ) + 1) * p.dt := by
            ring
          rw [htime]
          push_cast
          ring_nf

lemma gyre_simulate_aux_length (p : GyreParams) (n : ℕ) (s : ℝ × ℝ) (t : ℝ) :
    (gyre_simulate_aux p n s t).length = n := by
  induction n generalizing s t with
  | zero => rfl
  | succ m ih => simp [gyre_simulate_aux, ih]

/-- Concrete double-gyre parameters of the spec scenario:
`A = 0.1`, `epsilon = 0.25`, `omega = 0.5`, `dt = 0.02`. -/
noncomputable def gyreScenarioParams : GyreParams := ⟨1 / 10, 1 / 4, 1 / 2, 1 / 50⟩

/-- C4 counterexample: in the double-gyre collector the point at index 0
carries time `0`, the pre-step time, not `dt = (0+1)*dt` as claimed. -/
theorem simulate_trajectory_postStep_counterexample :
    ((gyre_simulate_trajectory gyreScenarioParams (1 / 2) (1 / 2) 1).getD 0 default).time
      = 0 ∧
    (0 : ℝ) ≠ ((0 : ℝ) + 1) * gyreScenarioParams.dt := by
  constructor
  · rw [gyre_simulate_trajectory, gyre_simulate_aux]
    rfl
  · rw [gyreScenarioParams]
    norm_num

/-- C4 amended: both generators return exactly `numSteps` points; the Lorenz
collector records post-step states, the point at index `k` being the state
after `k+1` RK4 steps with time `(k+1)*dt`, while the double-gyre collector
records pre-step states, the point at index `k` being the state after `k`
Euler steps with time `k*dt`. -/
theorem simulate_trajectory_points (pL : LorenzParams) (sL : LorenzState)
    (pG : GyreParams) (x0 y0 : ℝ) (n : ℕ) :
    (lorenz_simulate_trajectory pL sL n).length = n ∧
    (gyre_simulate_trajectory pG x0 y0 n).length = n ∧
    (∀ k : ℕ, k < n →
      (lorenz_simulate_trajectory pL sL n)[k]? =
        some (lorenz_point pL (((k : ℝ) + 1) * pL.dt) (lorenz_iter pL (k + 1) sL))) ∧
    (∀ k : ℕ, k < n →
      (gyre_simulate_trajectory pG x0 y0 n)[k]? =
        some (gyre_point pG ((k : ℝ) * pG.dt) (gyre_iter pG k (x0, y0) 0))) := by
  refine ⟨lorenz_simulate_aux_length pL n sL 0, gyre_simulate_aux_length pG n (x0, y0) 0,
    ?_, ?_⟩
  · intro k hk
    rw [lorenz_simulate_trajectory, lorenz_simulate_aux_getElem pL n sL 0 k hk,
      zero_add]
  · intro k hk
    rw [gyre_simulate_trajectory, gyre_simulate_aux_getElem pG n (x0, y0) 0 k hk,
      zero_add]

/-- C4 witness: one step of each simulator at concrete parameters. -/
theorem simulate_trajectory_points_witness :
    (lorenz_simulate_trajectory ⟨10, 28, 8 / 3, 1 / 100⟩ ⟨1 / 10, 0, 0⟩ 1)[0]? =
      some (lorenz_point ⟨10, 28, 8 / 3, 1 / 100⟩ ((1 : ℝ) / 100)
        (lorenz_iter ⟨10, 28, 8 / 3, 1 / 100⟩ 1 ⟨1 / 10, 0, 0⟩)) ∧
    (gyre_simulate_trajectory gyreScenarioParams (1 / 2) (1 / 2) 1)[0]? =
      some (gyre_point gyreScenarioParams 0
        (gyre_iter gyreScenarioParams 0 (1 / 2, 1 / 2) 0)) := by
  have h := simulate_trajectory_points ⟨10, 28, 8 / 3, 1 / 100⟩ ⟨1 / 10, 0, 0⟩
    gyreScenarioParams (1 / 2) (1 / 2) 1
  constructor
  · have h0 := h.2.2.1 0 (by omega)
    norm_num at h0
    convert h0 using 3
  · have h0 := h.2.2.2 0 (by omega)
    norm_num at h0
    convert h0 using 3

lemma wrapX_mem (w : ℝ) (h1 : -2 ≤ w) (h2 : w ≤ 4) :
    0 ≤ wrapX w ∧ wrapX w ≤ 2 := by
  simp only [wrapX, gyreDomainWidth]
  split_ifs <;> constructor <;> linarith

lemma reflectY_mem (w : ℝ) (h1 : -1 ≤ w) (h2 : w ≤ 2) :
    0 ≤ reflectY w ∧ reflectY w ≤ 1 := by
  simp only [reflectY, gyreDomainHeight]
  split_ifs <;> constructor <;> linarith

lemma mul_abs_le_self (P s c : ℝ) (hP : 0 ≤ P) (hs : |s| ≤ 1) (hc : |c| ≤ 1) :
    P * |s| * |c| ≤ P := by
  have h1 : P * |s| ≤ P := by
    nlinarith [mul_nonneg hP (show (0 : ℝ) ≤ 1 - |s| by linarith)]
  have h0 : 0 ≤ P * |s| := mul_nonneg hP (abs_nonneg s)
  nlinarith [mul_nonneg h0 (show (0 : ℝ) ≤ 1 - |c| by linarith)]

lemma abs_gyre_u (p : GyreParams) (x y t : ℝ) (hA0 : 0 ≤ p.A) :
    |(gyre_velocity p x y t).1| ≤ Real.pi * p.A := by
  rw [gyre_velocity]
  have hs := Real.abs_sin_le_one (Real.pi * (gyre_calculate_f p x t).1)
  have hc := Real.abs_cos_le_one (Real.pi * y)
  rw [abs_neg, abs_mul, abs_mul, abs_of_nonneg (mul_nonneg Real.pi_pos.le hA0)]
  exact mul_abs_le_self _ _ _ (mul_nonneg Real.pi_pos.le hA0) hs hc

lemma abs_gyre_dfdx (p : GyreParams) (x t : ℝ) (hx1 : 0 ≤ x) (hx2 : x ≤ 2)
    (he : |p.epsilon| ≤ 3 / 10) :
    |(gyre_calculate_f p x t).2| ≤ 14 / 5 := by
  rw [gyre_calculate_f, gyre_time_functions]
  dsimp only
  have hs := Real.abs_sin_le_one (p.omega * t)
  have hes : |p.epsilon * Real.sin (p.omega * t)| ≤ 3 / 10 := by
    rw [abs_mul]
    nlinarith [mul_nonneg (abs_nonneg p.epsilon)
      (show (0 : ℝ) ≤ 1 - |Real.sin (p.omega * t)| by linarith),
      abs_nonneg p.epsilon, abs_nonneg (Real.sin (p.omega * t))]
  have he2 := abs_le.mp hes
  rw [abs_le]
  constructor <;> nlinarith [he2.1, he2.2, hx1, hx2]

lemma abs_gyre_v (p : GyreParams) (x y t : ℝ) (hA0 : 0 ≤ p.A)
    (hx1 : 0 ≤ x) (hx2 : x ≤ 2) (he : |p.epsilon| ≤ 3 / 10) :
    |(gyre_velocity p x y t).2| ≤ Real.pi * p.A * (14 / 5) := by
  rw [gyre_velocity]
  have hs := Real.abs_sin_le_one (Real.pi * y)
  have hc := Real.abs_cos_le_one (Real.pi * (gyre_calculate_f p x t).1)
  have hd := abs_gyre_dfdx p x t hx1 hx2 he
  rw [abs_mul, abs_mul, abs_mul, abs_of_nonneg (mul_nonneg Real.pi_pos.le hA0)]
  have hP : (0 : ℝ) ≤ Real.pi * p.A := mul_nonneg Real.pi_pos.le hA0
  have h1 : Real.pi * p.A * |Real.cos (Real.pi * (gyre_calculate_f p x t).1)| *
      |Real.sin (Real.pi * y)| ≤ Real.pi * p.A :=
    mul_abs_le_self _ _ _ hP hc hs
  have h0 : (0 : ℝ) ≤ Real.pi * p.A * |Real.cos (Real.pi * (gyre_calculate_f p x t).1)| *
      |Real.sin (Real.pi * y)| := by positivity
  nlinarith [hd, abs_nonneg (gyre_calculate_f p x t).2]

/-- C7: from any position inside the `[0,2] × [0,1]` domain, with `A ≤ 0.125`
(the sampled values stay near `0.1`), `|epsilon| ≤ 0.3` and `dt = 0.02`, one
Euler step of the double-gyre simulator lands inside the domain again: the
wrapped `x` lies in `[0,2]` and the reflected `y` lies in `[0,1]`. -/
theorem gyre_step_euler_in_domain (p : GyreParams) (x y t : ℝ)
    (hx1 : 0 ≤ x) (hx2 : x ≤ 2) (hy1 : 0 ≤ y) (hy2 : y ≤ 1)
    (hA0 : 0 ≤ p.A) (hA : p.A ≤ 1 / 8) (he : |p.epsilon| ≤ 3 / 10)
    (hdt : p.dt = 1 / 50) :
    0 ≤ (gyre_step_euler p x y t).1 ∧ (gyre_step_euler p x y t).1 ≤ 2 ∧
    0 ≤ (gyre_step_euler p x y t).2 ∧ (gyre_step_euler p x y t).2 ≤ 1 := by
  have hpi : Real.pi ≤ 315 / 100 := by
    have := Real.pi_lt_d6
    linarith
  have hu := abs_gyre_u p x y t hA0
  have hv := abs_gyre_v p x y t hA0 hx1 hx2 he
  have hu2 : |p.dt * (gyre_velocity p x y t).1| ≤ 1 := by
    rw [hdt, abs_mul, show |(1 : ℝ) / 50| = 1 / 50 by norm_num]
    nlinarith [abs_nonneg (gyre_velocity p x y t).1, Real.pi_pos]
  have hv2 : |p.dt * (gyre_velocity p x y t).2| ≤ 1 := by
    rw [hdt, abs_mul, show |(1 : ℝ) / 50| = 1 / 50 by norm_num]
    nlinarith [abs_nonneg (gyre_velocity p x y t).2, Real.pi_pos]
  have hub := abs_le.mp hu2
  have hvb := abs_le.mp hv2
  have hw := wrapX_mem (x + p.dt * (gyre_velocity p x y t).1)
    (by linarith [hub.1]) (by linarith [hub.2])
  have hr := reflectY_mem (y + p.dt * (gyre_velocity p x y t).2)
    (by linarith [hvb.1]) (by linarith [hvb.2])
  exact ⟨hw.1, hw.2, hr.1, hr.2⟩

/-- C7 witness: the spec scenario `(x, y) = (0.5, 0.5)`, `A = 0.1`,
`epsilon = 0.25`, `omega = 0.5`, `dt = 0.02`, `t = 0`. -/
theorem gyre_step_euler_in_domain_witness :
    0 ≤ (gyre_step_euler gyreScenarioParams (1 / 2) (1 / 2) 0).1 ∧
    (gyre_step_euler gyreScenarioParams (1 / 2) (1 / 2) 0).1 ≤ 2 ∧
    0 ≤ (gyre_step_euler gyreScenarioParams (1 / 2) (1 / 2) 0).2 ∧
    (gyre_step_euler gyreScenarioParams (1 / 2) (1 / 2) 0).2 ≤ 1 :=
  gyre_step_euler_in_domain gyreScenarioParams (1 / 2) (1 / 2) 0
    (by norm_num) (by norm_num) (by norm_num) (by norm_num)
    (by rw [gyreScenarioParams]; norm_num) (by rw [gyreScenarioParams]; norm_num)
    (by rw [gyreScenarioParams,
      show |(1 : ℝ) / 4| = 1 / 4 from abs_of_nonneg (by norm_num)]; norm_num)
    (by rw [gyreScenarioParams])

/-! ### Initial-condition samplers

Each `np.random.random()` draw is modelled as one component of a vector of
reals in `[0, 1]`, in the order the source draws them. -/

structure DPInit where
  theta1 : ℝ
  theta2 : ℝ
  omega1 : ℝ
  omega2 : ℝ
  l1 : ℝ
  l2 : ℝ
  m1 : ℝ
  m2 : ℝ

/-- `generate_random_initial_conditions` of the double-pendulum collector:
angles `(r-0.5)*2*pi`, angular velocities `(r-0.5)*10`, lengths
`0.8 + r*0.4`, masses `0.5 + r*1.0`. -/
noncomputable def dp_generate_random_initial_conditions (r : Fin 8 → ℝ) : DPInit :=
  { theta1 := (r 0 - 1 / 2) * 2 * Real.pi
    theta2 := (r 1 - 1 / 2) * 2 * Real.pi
    omega1 := (r 2 - 1 / 2) * 10
    omega2 := (r 3 - 1 / 2) * 10
    l1 := 8 / 10 + r 4 * (4 / 10)
    l2 := 8 / 10 + r 5 * (4 / 10)
    m1 := 1 / 2 + r 6 * 1
    m2 := 1 / 2 + r 7 * 1 }

structure LorenzInit where
  x : ℝ
  y : ℝ
  z : ℝ
  sigma : ℝ
  rho : ℝ
  beta : ℝ

/-- `generate_random_initial_conditions` of the Lorenz collector. -/
noncomputable def lorenz_generate_random_initial_conditions (r : Fin 6 → ℝ) : LorenzInit :=
  { x := (r 0 - 1 / 2) * 20
    y := (r 1 - 1 / 2) * 30
    z := (r 2 - 1 / 2) * 40 + 20
    sigma := 10 + (r 3 - 1 / 2) * 2
    rho := 28 + (r 4 - 1 / 2) * 10
    beta := 8 / 3 + (r 5 - 1 / 2) * (1 / 2) }

/-- The claim's reading of "rod lengths uniformly in [0.5, 1.5]": every value
of that interval is attainable from some draw vector in `[0,1]`. -/
def dpLengthCoverageClaim : Prop :=
  ∀ v ∈ Set.Icc (1 / 2 : ℝ) (3 / 2), ∃ r : Fin 8 → ℝ,
    (∀ i, r i ∈ Set.Icc (0 : ℝ) 1) ∧
    (dp_generate_random_initial_conditions r).l1 = v

/-- C8 counterexample: the sampled rod length is `0.8 + r*0.4 ∈ [0.8, 1.2]`,
so the value `0.5` of the claimed range `[0.5, 1.5]` is never attained. -/
theorem sampler_ranges_counterexample : ¬dpLengthCoverageClaim := by
  intro h
  obtain ⟨r, hr, hl⟩ := h (1 / 2) (by constructor <;> norm_num)
  have h4 := (hr 4).1
  rw [dp_generate_random_initial_conditions] at hl
  dsimp only at hl
  linarith

lemma affine_cover (lo hi v : ℝ) (h : lo < hi) (hv : v ∈ Set.Icc lo hi) :
    ∃ r ∈ Set.Icc (0 : ℝ) 1, lo + (hi - lo) * r = v := by
  have hne : hi - lo ≠ 0 := sub_ne_zero.mpr (ne_of_gt h)
  rw [Set.mem_Icc] at hv
  refine ⟨(v - lo) / (hi - lo), ⟨?_, ?_⟩, ?_⟩
  · exact div_nonneg (by linarith [hv.1]) (by linarith)
  · rw [div_le_one (by linarith)]
    linarith [hv.2]
  · field_simp

/-- C8 amended: with every draw in `[0,1]`, the double-pendulum sampler
returns angles in `[-pi, pi]`, angular velocities in `[-5, 5]`, rod lengths
in `[0.8, 1.2]` (not `[0.5, 1.5]`), masses in `[0.5, 1.5]`, and the Lorenz
sampler returns `x ∈ [-10,10]`, `y ∈ [-15,15]`, `z ∈ [0,40]`; moreover every
rod length of `[0.8, 1.2]` is attained by some draw, so the support of the
length distribution is `[0.8, 1.2]`. -/
theorem sampler_ranges :
    (∀ r : Fin 8 → ℝ, (∀ i, r i ∈ Set.Icc (0 : ℝ) 1) →
      (dp_generate_random_initial_conditions r).theta1 ∈
        Set.Icc (-Real.pi) Real.pi ∧
      (dp_generate_random_initial_conditions r).theta2 ∈
        Set.Icc (-Real.pi) Real.pi ∧
      (dp_generate_random_initial_conditions r).omega1 ∈ Set.Icc (-5 : ℝ) 5 ∧
      (dp_generate_random_initial_conditions r).omega2 ∈ Set.Icc (-5 : ℝ) 5 ∧
      (dp_generate_random_initial_conditions r).l1 ∈ Set.Icc (8 / 10 : ℝ) (12 / 10) ∧
      (dp_generate_random_initial_conditions r).l2 ∈ Set.Icc (8 / 10 : ℝ) (12 / 10) ∧
      (dp_generate_random_initial_conditions r).m1 ∈ Set.Icc (1 / 2 : ℝ) (3 / 2) ∧
      (dp_generate_random_initial_conditions r).m2 ∈ Set.Icc (1 / 2 : ℝ) (3 / 2)) ∧
    (∀ r : Fin 6 → ℝ, (∀ i, r i ∈ Set.Icc (0 : ℝ) 1) →
      (lorenz_generate_random_initial_conditions r).x ∈ Set.Icc (-10 : ℝ) 10 ∧
      (lorenz_generate_random_initial_conditions r).y ∈ Set.Icc (-15 : ℝ) 15 ∧
      (lorenz_generate_random_initial_conditions r).z ∈ Set.Icc (0 : ℝ) 40) ∧
    (∀ v ∈ Set.Icc (8 / 10 : ℝ) (12 / 10), ∃ r : Fin 8 → ℝ,
      (∀ i, r i ∈ Set.Icc (0 : ℝ) 1) ∧
      (dp_generate_random_initial_conditions r).l1 = v) := by
  refine ⟨?_, ?_, ?_⟩
  · intro r hr
    rw [dp_generate_random_initial_conditions]
    dsimp only
    simp only [Set.mem_Icc] at hr ⊢
    obtain ⟨h0, h0b⟩ := hr 0
    obtain ⟨h1, h1b⟩ := hr 1
    obtain ⟨h2, h2b⟩ := hr 2
    obtain ⟨h3, h3b⟩ := hr 3
    obtain ⟨h4, h4b⟩ := hr 4
    obtain ⟨h5, h5b⟩ := hr 5
    obtain ⟨h6, h6b⟩ := hr 6
    obtain ⟨h7, h7b⟩ := hr 7
    exact ⟨⟨by nlinarith [mul_nonneg Real.pi_pos.le h0],
        by nlinarith [mul_nonneg Real.pi_pos.le (show (0 : ℝ) ≤ 1 - r 0 by linarith)]⟩,
      ⟨by nlinarith [mul_nonneg Real.pi_pos.le h1],
        by nlinarith [mul_nonneg Real.pi_pos.le (show (0 : ℝ) ≤ 1 - r 1 by linarith)]⟩,
      ⟨by linarith, by linarith⟩, ⟨by linarith, by linarith⟩,
      ⟨by linarith, by linarith⟩, ⟨by linarith, by linarith⟩,
      ⟨by linarith, by linarith⟩, ⟨by linarith, by linarith⟩⟩
  · intro r hr
    rw [lorenz_generate_random_initial_conditions]
    dsimp only
    simp only [Set.mem_Icc] at hr ⊢
    obtain ⟨h0, h0b⟩ := hr 0
    obtain ⟨h1, h1b⟩ := hr 1
    obtain ⟨h2, h2b⟩ := hr 2
    exact ⟨⟨by linarith, by linarith⟩, ⟨by linarith, by linarith⟩,
      ⟨by linarith, by linarith⟩⟩
  · intro v hv
    obtain ⟨r4, hr4, hr4v⟩ := affine_cover (8 / 10) (12 / 10) v (by norm_num) hv
    refine ⟨fun i => if i = 4 then r4 else 0, ?_, ?_⟩
    · intro i
      show (if i = 4 then r4 else 0) ∈ Set.Icc (0 : ℝ) 1
      by_cases hi : i = 4
      · rw [if_pos hi]
        exact hr4
      · rw [if_neg hi]
        rw [Set.mem_Icc]
        constructor <;> norm_num
    · rw [dp_generate_random_initial_conditions]
      dsimp only
      rw [if_pos rfl]
      linarith

/-- C8 witness: the mid-range draw vector. -/
theorem sampler_ranges_witness :
    (dp_generate_random_initial_conditions (fun _ => 1 / 2)).l1 ∈
      Set.Icc (8 / 10 : ℝ) (12 / 10) ∧
    (dp_generate_random_initial_conditions (fun _ => 1 / 2)).m1 ∈
      Set.Icc (1 / 2 : ℝ) (3 / 2) ∧
    (lorenz_generate_random_initial_conditions (fun _ => 1 / 2)).z ∈
      Set.Icc (0 : ℝ) 40 := by
  have h1 := (sampler_ranges.1 (fun _ => 1 / 2)
    (fun i => by constructor <;> norm_num))
  have h2 := (sampler_ranges.2.1 (fun _ => 1 / 2)
    (fun i => by constructor <;> norm_num))
  exact ⟨h1.2.2.2.2.1, h1.2.2.2.2.2.2.1, h2.2.2⟩

/-! ### Malkus waterwheel (`collect_malkus_data.py`) -/

structure MalkusParams where
  numBuckets : ℕ
  Q : ℝ
  K : ℝ
  nu : ℝ
  dt : ℝ

noncomputable def malkus_bucket_angle (p : MalkusParams) (theta : ℝ)
    (i : Fin p.numBuckets) : ℝ :=
  theta + 2 * Real.pi * (i : ℝ) / (p.numBuckets : ℝ)

noncomputable def malkus_torque (p : MalkusParams) (theta : ℝ)
    (masses : Fin p.numBuckets → ℝ) : ℝ :=
  ∑ i, masses i * Real.sin (malkus_bucket_angle p theta i)

/-- Per-bucket mass derivative: conditional inflow near the top of the wheel
(`cos(angle) > |cos(2*pi/num_buckets)|`) minus leak `K*mass`. -/
noncomputable def malkus_dmass (p : MalkusParams) (theta : ℝ)
    (masses : Fin p.numBuckets → ℝ) (i : Fin p.numBuckets) : ℝ :=
  let angle := malkus_bucket_angle p theta i
  let inflow :=
    if Real.cos angle > |Real.cos (2 * Real.pi / (p.numBuckets : ℝ))| then
      p.Q / 2 *
        (Real.cos ((p.numBuckets : ℝ) * Real.arctan (Real.tan angle) / 2) + 1)
    else 0
  inflow - p.K * masses i

noncomputable def malkus_derivatives (p : MalkusParams) (omega theta : ℝ)
    (masses : Fin p.numBuckets → ℝ) : ℝ × ℝ × (Fin p.numBuckets → ℝ) :=
  (malkus_torque p theta masses - p.nu * omega, omega,
    fun i => malkus_dmass p theta masses i)

/-- `MalkusWheelSimulator.step_euler`: Euler update with the bucket masses
clamped by `np.maximum(0, ...)`. -/
noncomputable def malkus_step_euler (p : MalkusParams) (omega theta : ℝ)
    (masses : Fin p.numBuckets → ℝ) : ℝ × ℝ × (Fin p.numBuckets → ℝ) :=
  ((omega + p.dt * (malkus_derivatives p omega theta masses).1,
    theta + p.dt * (malkus_derivatives p omega theta masses).2.1,
    fun i => max 0 (masses i + p.dt * (malkus_derivatives p omega theta masses).2.2 i)))

/-- C9: after one Euler step of the Malkus wheel every bucket mass is
non-negative, for every pre-step state and every parameter set. -/
theorem malkus_step_euler_masses_nonneg (p : MalkusParams) (omega theta : ℝ)
    (masses : Fin p.numBuckets → ℝ) (i : Fin p.numBuckets) :
    0 ≤ (malkus_step_euler p omega theta masses).2.2 i :=
  le_max_left 0 _

end Gravitation3
